import Mathlib

/-!
# mcdex: the command dispatcher of `src/mcdex/main.go`

A shallow embedding of the dispatcher.  The dispatcher calls into the pack
engine (`NewModPack`, `OpenModPack`, the `*ModPack` methods, `initEnv`,
`NewDatabase`, `env`), which lives in other files of the package; those
functions are taken as parameters (`Core`) acting on an abstract world `W`.
Every call into the engine is recorded, with the error it returned, in a
trace, so that "which operations ran, in which order" is a statement about
the trace.

The model starts where `flag.Parse()` has returned: its input is the list of
positional arguments (`flag.Args()`), read through `NArg` and `Arg`.
-/

namespace Mcdex

/-! ## Data model -/

/-- A Go `error` value that is not nil, identified by its message. -/
structure GoError where
  msg : String
  deriving DecidableEq, Repr

/-- The value of `fmt.Errorf(msg)` for a format without verbs. -/
def Errorf (msg : String) : GoError := ⟨msg⟩

/-- The calls the dispatcher makes into the pack engine.  `P` is the type of
pack handles (`*ModPack`), `D` the type of database handles. -/
inductive Call (P D : Type) where
  | initEnv
  | NewModPack (name url : String)
  | OpenModPack (name : String)
  | createManifest (cp : P) (name mcVersion forgeVersion : String)
  | createLauncherProfile (cp : P)
  | download (cp : P)
  | processManifest (cp : P)
  | installMods (cp : P)
  | installOverrides (cp : P)
  | registerMod (cp : P) (url fileId : String)
  | installServer (cp : P)
  | NewDatabase
  | Download (db : D)
  | env
  deriving DecidableEq, Repr

/-- What a run leaves behind, in order: a call into the engine together
with the error it returned (`none` is Go's nil), a text written with
`fmt.Printf`, or a `log.Fatalf` with its format and error argument. -/
inductive Event (P D : Type) where
  | call (c : Call P D) (err : Option GoError)
  | console (text : String)
  | fatal (format : String) (err : GoError)
  deriving DecidableEq, Repr

/-- The state threaded through a run: the world the engine acts on and the
trace of events so far (oldest first). -/
structure St (W P D : Type) where
  world : W
  trace : List (Event P D)
  deriving DecidableEq, Repr

/-- The functions of the package that `main.go` calls and that are defined
in other files, and the two library calls whose results reach the engine
(`os.Getwd`, `filepath.Abs`).  Each engine function maps the world to its
result and the new world; the library calls only read the world and return
Go's pair of a string and an error. -/
structure Core (W P D : Type) where
  initEnv : W → Option GoError × W
  NewModPack : String → String → W → Except GoError P × W
  OpenModPack : String → W → Except GoError P × W
  createManifest : P → String → String → String → W → Option GoError × W
  createLauncherProfile : P → W → Option GoError × W
  download : P → W → Option GoError × W
  processManifest : P → W → Option GoError × W
  installMods : P → W → Option GoError × W
  installOverrides : P → W → Option GoError × W
  registerMod : P → String → String → W → Option GoError × W
  installServer : P → W → Option GoError × W
  NewDatabase : W → Except GoError D × W
  Download : D → W → Option GoError × W
  env : W → String × W
  Getwd : W → String × Option GoError
  Abs : String → W → String × Option GoError

variable {W P D : Type}

/-- Append one event to the trace. -/
def St.emit (s : St W P D) (e : Event P D) : St W P D :=
  { s with trace := s.trace ++ [e] }

/-- Record an engine call: the world it left and the error it returned. -/
def St.log (s : St W P D) (w : W) (c : Call P D) (err : Option GoError) : St W P D :=
  { world := w, trace := s.trace ++ [Event.call c err] }

/-- The Go function `flag.NArg()`: the number of positional arguments. -/
def NArg (args : List String) : Nat := args.length

/-- The Go function `flag.Arg(i)`: the i-th positional argument, or the
empty string when there is none. -/
def Arg (args : List String) (i : Nat) : String := args.getD i ""

/-- The Go function `flag.Parsed()`; `main` asks it after `flag.Parse()` has
returned, when it is true. -/
def Parsed : Bool := true

/-- The Go function `strings.Contains(s, substr)`. -/
def stringsContains (s substr : String) : Bool :=
  s.toList.tails.any (fun t => substr.toList.isPrefixOf t)

/-- How a command function ends: it returns an error value (`none` is nil),
or it ends the process itself with `os.Exit(code)`. -/
inductive Ret where
  | ret (err : Option GoError)
  | exit (code : Int)
  deriving DecidableEq, Repr

/-! ## The command functions -/

/-- The Go function `cmdCreatePack`. -/
def cmdCreatePack (c : Core W P D) (args : List String) (s : St W P D) : Ret × St W P D :=
  if NArg args < 4 then
    (.ret (some (Errorf "Insufficient arguments")), s)
  else
    match c.NewModPack (Arg args 1) "" s.world with
    | (.error err, w) => (.ret (some err), s.log w (.NewModPack (Arg args 1) "") (some err))
    | (.ok cp, w) =>
      let s := s.log w (.NewModPack (Arg args 1) "") none
      match c.createManifest cp (Arg args 1) (Arg args 2) (Arg args 3) s.world with
      | (some err, w) =>
        (.ret (some err), s.log w (.createManifest cp (Arg args 1) (Arg args 2) (Arg args 3)) (some err))
      | (none, w) =>
        let s := s.log w (.createManifest cp (Arg args 1) (Arg args 2) (Arg args 3)) none
        match c.createLauncherProfile cp s.world with
        | (some err, w) => (.ret (some err), s.log w (.createLauncherProfile cp) (some err))
        | (none, w) => (.ret none, s.log w (.createLauncherProfile cp) none)

/-- The Go function `cmdInstallPack`. -/
def cmdInstallPack (c : Core W P D) (args : List String) (s : St W P D) : Ret × St W P D :=
  if NArg args < 3 then
    (.ret (some (Errorf "Insufficient arguments")), s)
  else
    match c.NewModPack (Arg args 1) (Arg args 2) s.world with
    | (.error err, w) =>
      (.ret (some err), s.log w (.NewModPack (Arg args 1) (Arg args 2)) (some err))
    | (.ok cp, w) =>
      let s := s.log w (.NewModPack (Arg args 1) (Arg args 2)) none
      match c.download cp s.world with
      | (some err, w) => (.ret (some err), s.log w (.download cp) (some err))
      | (none, w) =>
        let s := s.log w (.download cp) none
        match c.processManifest cp s.world with
        | (some err, w) => (.ret (some err), s.log w (.processManifest cp) (some err))
        | (none, w) =>
          let s := s.log w (.processManifest cp) none
          match c.createLauncherProfile cp s.world with
          | (some err, w) => (.ret (some err), s.log w (.createLauncherProfile cp) (some err))
          | (none, w) =>
            let s := s.log w (.createLauncherProfile cp) none
            match c.installMods cp s.world with
            | (some err, w) => (.ret (some err), s.log w (.installMods cp) (some err))
            | (none, w) =>
              let s := s.log w (.installMods cp) none
              match c.installOverrides cp s.world with
              | (some err, w) => (.ret (some err), s.log w (.installOverrides cp) (some err))
              | (none, w) => (.ret none, s.log w (.installOverrides cp) none)

/-- The name `cmdInstallLocalPack` hands to `OpenModPack`: the argument,
replaced by the string `os.Getwd` returns when it is ".", then replaced by
the string `filepath.Abs` returns; the error of either call is dropped. -/
def localPackName (c : Core W P D) (args : List String) (w : W) : String :=
  let name := Arg args 1
  let name := if name = "." then (c.Getwd w).1 else name
  (c.Abs name w).1

/-- The Go function `cmdInstallLocalPack`. -/
def cmdInstallLocalPack (c : Core W P D) (args : List String) (s : St W P D) : Ret × St W P D :=
  if NArg args < 2 then
    (.ret (some (Errorf "Insufficient arguments")), s)
  else
    let name := localPackName c args s.world
    match c.OpenModPack name s.world with
    | (.error err, w) => (.ret (some err), s.log w (.OpenModPack name) (some err))
    | (.ok cp, w) =>
      let s := s.log w (.OpenModPack name) none
      match c.createLauncherProfile cp s.world with
      | (some err, w) => (.ret (some err), s.log w (.createLauncherProfile cp) (some err))
      | (none, w) =>
        let s := s.log w (.createLauncherProfile cp) none
        match c.installMods cp s.world with
        | (some err, w) => (.ret (some err), s.log w (.installMods cp) (some err))
        | (none, w) => (.ret none, s.log w (.installMods cp) none)

/-- The Go function `cmdUpdate`; when `NewDatabase` fails it ends the process
through `log.Fatalf` (exit code 1). -/
def cmdUpdate (c : Core W P D) (_args : List String) (s : St W P D) : Ret × St W P D :=
  match c.NewDatabase s.world with
  | (.error err, w) => (.exit 1, (s.log w .NewDatabase (some err)).emit (.fatal "%+v\n" err))
  | (.ok db, w) =>
    let s := s.log w .NewDatabase none
    match c.Download db s.world with
    | (err, w) => (.ret err, s.log w (.Download db) err)

/-- The Go function `cmdInfo`; `c.env` gives the text `%+v` prints for the
value of `env()`. -/
def cmdInfo (c : Core W P D) (_args : List String) (s : St W P D) : Ret × St W P D :=
  match c.env s.world with
  | (text, w) => (.ret none, (s.log w .env none).emit (.console ("Env: " ++ text ++ "\n")))

/-- The Go function `cmdInstallMods`. -/
def cmdInstallMods (c : Core W P D) (args : List String) (s : St W P D) : Ret × St W P D :=
  if NArg args < 1 then
    (.ret (some (Errorf "Insufficient arguments")), s)
  else
    match c.OpenModPack (Arg args 1) s.world with
    | (.error err, w) => (.ret (some err), s.log w (.OpenModPack (Arg args 1)) (some err))
    | (.ok cp, w) =>
      let s := s.log w (.OpenModPack (Arg args 1)) none
      match c.installMods cp s.world with
      | (some err, w) => (.ret (some err), s.log w (.installMods cp) (some err))
      | (none, w) => (.ret none, s.log w (.installMods cp) none)

/-- The Go function `cmdRegisterMod`. -/
def cmdRegisterMod (c : Core W P D) (args : List String) (s : St W P D) : Ret × St W P D :=
  if NArg args < 3 then
    (.ret (some (Errorf "Insufficient arguments")), s)
  else if !stringsContains (Arg args 2) "minecraft.curseforge.com" && NArg args < 4 then
    (.ret (some (Errorf "Insufficient arguments")), s)
  else
    match c.OpenModPack (Arg args 1) s.world with
    | (.error err, w) => (.ret (some err), s.log w (.OpenModPack (Arg args 1)) (some err))
    | (.ok cp, w) =>
      let s := s.log w (.OpenModPack (Arg args 1)) none
      match c.registerMod cp (Arg args 2) (Arg args 3) s.world with
      | (some err, w) =>
        (.ret (some err), s.log w (.registerMod cp (Arg args 2) (Arg args 3)) (some err))
      | (none, w) => (.ret none, s.log w (.registerMod cp (Arg args 2) (Arg args 3)) none)

/-- The Go function `cmdRunServer`. -/
def cmdRunServer (c : Core W P D) (args : List String) (s : St W P D) : Ret × St W P D :=
  if NArg args < 2 then
    (.ret (some (Errorf "Insufficient arguments")), s)
  else
    match c.OpenModPack (Arg args 1) s.world with
    | (.error err, w) => (.ret (some err), s.log w (.OpenModPack (Arg args 1)) (some err))
    | (.ok cp, w) =>
      let s := s.log w (.OpenModPack (Arg args 1)) none
      match c.installServer cp s.world with
      | (some err, w) => (.ret (some err), s.log w (.installServer cp) (some err))
      | (none, w) => (.ret none, s.log w (.installServer cp) none)

/-! ## The command table and `main` -/

/-- The eight command functions, as values that the table can hold. -/
inductive CmdFn where
  | cmdCreatePack
  | cmdInstallPack
  | cmdInstallLocalPack
  | cmdUpdate
  | cmdInfo
  | cmdRegisterMod
  | cmdInstallMods
  | cmdRunServer
  deriving DecidableEq, Repr

/-- Calling a function value of the table runs the function of that name. -/
def CmdFn.run (f : CmdFn) (c : Core W P D) (args : List String) (s : St W P D) :
    Ret × St W P D :=
  match f with
  | .cmdCreatePack => Mcdex.cmdCreatePack c args s
  | .cmdInstallPack => Mcdex.cmdInstallPack c args s
  | .cmdInstallLocalPack => Mcdex.cmdInstallLocalPack c args s
  | .cmdUpdate => Mcdex.cmdUpdate c args s
  | .cmdInfo => Mcdex.cmdInfo c args s
  | .cmdRegisterMod => Mcdex.cmdRegisterMod c args s
  | .cmdInstallMods => Mcdex.cmdInstallMods c args s
  | .cmdRunServer => Mcdex.cmdRunServer c args s

/-- The Go type `command`. -/
structure command where
  Fn : CmdFn
  Usage : String
  deriving DecidableEq, Repr

/-- The Go map `gCommands`, as the list of its key-value pairs in the order
of the map literal (a Go map literal has no key twice). -/
def gCommands : List (String × command) :=
  [ ("createPack", ⟨.cmdCreatePack, "Create a new mod pack"⟩),
    ("installPack", ⟨.cmdInstallPack, "Install a mod pack"⟩),
    ("installLocalPack", ⟨.cmdInstallLocalPack, "Install specified directory as a pack"⟩),
    ("update", ⟨.cmdUpdate, "Download latest index"⟩),
    ("info", ⟨.cmdInfo, "Show runtime info"⟩),
    ("registerMod", ⟨.cmdRegisterMod, "Register a curseforge mod with an existing pack"⟩),
    ("installMods", ⟨.cmdInstallMods, "Install all mods using the manifest"⟩),
    ("runServer", ⟨.cmdRunServer, "Run a minecraft server with an existing pack"⟩) ]

/-- The Go function `console`, called with a text that is already formatted. -/
def console (text : String) (s : St W P D) : St W P D := s.emit (.console text)

/-- The Go function `usage`.  Go leaves the order of `range gCommands`
open; `order` is the sequence of pairs the loop visits in this run. -/
def usage (order : List (String × command)) (s : St W P D) : St W P D :=
  let s := console "usage: mcdex [<options>] <command> [<args>]\n" s
  let s := console " commands:\n" s
  order.foldl (fun s p => console (" - " ++ p.1 ++ ": " ++ p.2.Usage ++ "\n") s) s

/-- The end of `main`, after `command.Fn()` (lines 267 to 271): a command
that ended the process leaves its exit code; an error that is not nil goes to
`log.Fatalf`, which exits with code 1; on nil `main` returns. -/
def afterCommand (r : Ret × St W P D) : Option Int × St W P D :=
  match r with
  | (.exit code, s) => (some code, s)
  | (.ret (some err), s) => (some 1, s.emit (.fatal "%+v\n" err))
  | (.ret none, s) => (none, s)

/-- The Go function `main`, from the return of `flag.Parse()` on.  The result
is `some code` when the process ends through `os.Exit(code)` (`log.Fatalf`
exits with code 1) and `none` when `main` returns. -/
def main (c : Core W P D) (order : List (String × command)) (args : List String)
    (s : St W P D) : Option Int × St W P D :=
  if !Parsed || NArg args < 1 then
    (some (-1), usage order s)
  else
    match c.initEnv s.world with
    | (some err, w) =>
      (some 1, (s.log w .initEnv (some err)).emit (.fatal "Failed to initialize: %s\n" err))
    | (none, w) =>
      let s := s.log w .initEnv none
      match gCommands.lookup (Arg args 0) with
      | none =>
        (some (-1), usage order (console ("ERROR: unknown command '" ++ Arg args 0 ++ "'\n") s))
      | some command => afterCommand (command.Fn.run c args s)

/-- The exit status the parent process sees: 0 when `main` returns, and the
low eight bits of the code given to `os.Exit` otherwise. -/
def exitStatus (r : Option Int) : Int :=
  match r with
  | none => 0
  | some code => code % 256

/-! ## Definitions that follow the words of the specification -/

/-- One engine call of a sequence: how it is recorded and what it does. -/
structure Step (W P D : Type) where
  call : Call P D
  run : W → Option GoError × W

/-- The words "runs the steps in exactly that order, returns the first
error unchanged and runs none of the later steps, and returns nil when every
step returns nil", as a function: each step runs in the world the previous
one left and is recorded with its error; the first error that is not nil
ends the sequence. -/
def runInOrder : List (Step W P D) → St W P D → Ret × St W P D
  | [], s => (.ret none, s)
  | st :: rest, s =>
    match st.run s.world with
    | (some err, w) => (.ret (some err), s.log w st.call (some err))
    | (none, w) => runInOrder rest (s.log w st.call none)

/-- The words "constructs (or opens) the pack and then runs the steps in
that order": when the constructor returns an error, that error is returned
and no step runs; otherwise the steps run in order on the pack it returned. -/
def packThenInOrder (r : Except GoError P × W) (made : Call P D)
    (steps : P → List (Step W P D)) (s : St W P D) : Ret × St W P D :=
  match r with
  | (.error err, w) => (.ret (some err), s.log w made (some err))
  | (.ok cp, w) => runInOrder (steps cp) (s.log w made none)

/-- The record of a step that ran and returned nil. -/
def Step.passed (st : Step W P D) : Event P D := .call st.call none

/-- The characters of a URL after the "://" that ends its scheme, or the
whole URL when there is none. -/
def dropScheme (u : List Char) : List Char :=
  match u.tails.find? (fun t => "://".toList.isPrefixOf t) with
  | some t => t.drop 3
  | none => u

/-- Modelled from the spec: "the URL host" of section 9 (b), for which the
source has no function: the authority of the URL (the text after the scheme
up to the first '/', '?' or '#') without the user information that ends in
'@'. -/
def urlHost (u : String) : String :=
  let authority := (dropScheme u.toList).takeWhile (fun ch => ch != '/' && ch != '?' && ch != '#')
  String.mk (authority.reverse.takeWhile (fun ch => ch != '@')).reverse

/-- The Go function `filepath.IsAbs` on Unix: the path starts with a slash. -/
def IsAbs (path : String) : Bool := "/".toList.isPrefixOf path.toList

/-- The documented contract of `filepath.Abs`: when it returns no error, the
path it returns is absolute. -/
def AbsContract (c : Core W P D) : Prop :=
  ∀ (path : String) (w : W), (c.Abs path w).2 = none → IsAbs (c.Abs path w).1 = true

/-- A stretch of trace without a call of `initEnv`. -/
def NoInitEnv (t : List (Event P D)) : Prop :=
  ∀ ev ∈ t, ∀ e, ev ≠ Event.call Call.initEnv e

/-! ## A concrete engine, to evaluate the model -/

/-- The error of the engine call number `w` in `demoCore`: the call number
`bad` fails, every other call succeeds. -/
def demoErr (bad w : Nat) (what : String) : Option GoError :=
  if w = bad then some ⟨what⟩ else none

/-- The result of a constructor call number `w` in `demoCore`. -/
def demoNew {α : Type} (bad w : Nat) (what : String) (a : α) : Except GoError α :=
  if w = bad then .error ⟨what⟩ else .ok a

/-- A concrete engine: the world counts the engine calls made so far, the
call number `bad` (from 0) fails and every other succeeds, a pack handle is
the name it was made from, and `cwd` is the working directory of the process
(`none` when it cannot be determined, as after its removal).  `Getwd` and
`Abs` return the empty string with their error, as the Go library does. -/
def demoCore (bad : Nat) (cwd : Option String) : Core Nat String Unit where
  initEnv w := (demoErr bad w "no minecraft directory", w + 1)
  NewModPack name _ w := (demoNew bad w "pack exists" name, w + 1)
  OpenModPack name w := (demoNew bad w "no manifest" name, w + 1)
  createManifest _ _ _ _ w := (demoErr bad w "createManifest failed", w + 1)
  createLauncherProfile _ w := (demoErr bad w "no launcher", w + 1)
  download _ w := (demoErr bad w "download failed", w + 1)
  processManifest _ w := (demoErr bad w "manifest invalid", w + 1)
  installMods _ w := (demoErr bad w "mod unresolvable", w + 1)
  installOverrides _ w := (demoErr bad w "installOverrides failed", w + 1)
  registerMod _ _ _ w := (demoErr bad w "bad mod url", w + 1)
  installServer _ w := (demoErr bad w "forge install failed", w + 1)
  NewDatabase w := (demoNew bad w "database unavailable" (), w + 1)
  Download _ w := (demoErr bad w "index corrupt", w + 1)
  env w := ("demo", w + 1)
  Getwd _ :=
    match cwd with
    | some dir => (dir, none)
    | none => ("", some ⟨"getwd: no such file or directory"⟩)
  Abs path _ :=
    if IsAbs path then (path, none)
    else
      match cwd with
      | some dir => (dir ++ "/" ++ path, none)
      | none => ("", some ⟨"getwd: no such file or directory"⟩)

/-- The state a run starts in with `demoCore`: no call made, nothing traced. -/
def demoStart : St Nat String Unit := ⟨0, []⟩

/-! ## Running steps in order: what the sequence leaves in the trace -/

/-- A sequence returns nil exactly when every step ran and returned nil. -/
theorem runInOrder_none_iff (steps : List (Step W P D)) (s : St W P D) :
    (runInOrder steps s).1 = .ret none ↔
      (runInOrder steps s).2.trace = s.trace ++ steps.map Step.passed := by
  induction steps generalizing s with
  | nil => simp [runInOrder]
  | cons st rest ih =>
    rcases h : st.run s.world with ⟨_ | err, w⟩
    · simp [runInOrder, h, ih, St.log, Step.passed]
    · simp [runInOrder, h, St.log, Step.passed]

/-- An error a sequence returns is the error of the last call made; the calls
before it returned nil. -/
theorem runInOrder_some (steps : List (Step W P D)) (s : St W P D) (err : GoError)
    (h : (runInOrder steps s).1 = .ret (some err)) :
    ∃ (pre : List (Event P D)) (last : Call P D),
      (runInOrder steps s).2.trace = s.trace ++ pre ++ [.call last (some err)] ∧
      ∀ ev ∈ pre, ∃ cl, ev = Event.call cl none := by
  induction steps generalizing s with
  | nil => simp [runInOrder] at h
  | cons st rest ih =>
    rcases hr : st.run s.world with ⟨_ | e, w⟩
    · simp only [runInOrder, hr] at h ⊢
      obtain ⟨pre, last, htr, hpre⟩ := ih _ h
      refine ⟨.call st.call none :: pre, last, ?_, ?_⟩
      · simpa [St.log] using htr
      · intro ev hev
        rcases List.mem_cons.mp hev with rfl | hev
        · exact ⟨_, rfl⟩
        · exact hpre ev hev
    · simp only [runInOrder, hr] at h ⊢
      have he : e = err := by simpa using h
      subst he
      exact ⟨[], st.call, by simp [St.log], by simp⟩

/-- Constructing and then running the steps returns nil exactly when the
constructor returned a pack and every step ran on it and returned nil. -/
theorem packThenInOrder_none_iff (r : Except GoError P × W) (made : Call P D)
    (steps : P → List (Step W P D)) (s : St W P D) :
    (packThenInOrder r made steps s).1 = .ret none ↔
      ∃ cp, r.1 = .ok cp ∧
        (packThenInOrder r made steps s).2.trace =
          s.trace ++ .call made none :: (steps cp).map Step.passed := by
  rcases r with ⟨err | cp, w⟩
  · simp [packThenInOrder, St.log]
  · simp [packThenInOrder, runInOrder_none_iff, St.log]

/-- An error returned by constructing and then running the steps is the error
of the last call made; the calls before it returned nil. -/
theorem packThenInOrder_some (r : Except GoError P × W) (made : Call P D)
    (steps : P → List (Step W P D)) (s : St W P D) (err : GoError)
    (h : (packThenInOrder r made steps s).1 = .ret (some err)) :
    ∃ (pre : List (Event P D)) (last : Call P D),
      (packThenInOrder r made steps s).2.trace = s.trace ++ pre ++ [.call last (some err)] ∧
      ∀ ev ∈ pre, ∃ cl, ev = Event.call cl none := by
  rcases r with ⟨e | cp, w⟩
  · simp only [packThenInOrder] at h ⊢
    have he : e = err := by simpa using h
    subst he
    exact ⟨[], made, by simp [St.log], by simp⟩
  · simp only [packThenInOrder] at h ⊢
    obtain ⟨pre, last, htr, hpre⟩ := runInOrder_some _ _ err h
    refine ⟨.call made none :: pre, last, ?_, ?_⟩
    · simpa [St.log] using htr
    · intro ev hev
      rcases List.mem_cons.mp hev with rfl | hev
      · exact ⟨_, rfl⟩
      · exact hpre ev hev

/-! ## The command functions as sequences of steps -/

/-- With two arguments after the command name, `cmdInstallPack` is the
constructor followed by its five steps. -/
theorem cmdInstallPack_eq (c : Core W P D) (a0 name url : String) (rest : List String)
    (s : St W P D) :
    cmdInstallPack c (a0 :: name :: url :: rest) s =
      packThenInOrder (c.NewModPack name url s.world) (.NewModPack name url)
        (fun cp =>
          [⟨.download cp, c.download cp⟩, ⟨.processManifest cp, c.processManifest cp⟩,
           ⟨.createLauncherProfile cp, c.createLauncherProfile cp⟩,
           ⟨.installMods cp, c.installMods cp⟩, ⟨.installOverrides cp, c.installOverrides cp⟩]) s := by
  simp only [cmdInstallPack, NArg, Arg, packThenInOrder, runInOrder, List.length_cons,
    List.getD_cons_succ, List.getD_cons_zero]
  rw [if_neg (by omega)]

/-- With three arguments after the command name, `cmdCreatePack` is the
constructor followed by its two steps. -/
theorem cmdCreatePack_eq (c : Core W P D) (a0 name mcVersion forgeVersion : String)
    (rest : List String) (s : St W P D) :
    cmdCreatePack c (a0 :: name :: mcVersion :: forgeVersion :: rest) s =
      packThenInOrder (c.NewModPack name "" s.world) (.NewModPack name "")
        (fun cp =>
          [⟨.createManifest cp name mcVersion forgeVersion,
              c.createManifest cp name mcVersion forgeVersion⟩,
           ⟨.createLauncherProfile cp, c.createLauncherProfile cp⟩]) s := by
  simp only [cmdCreatePack, NArg, Arg, packThenInOrder, runInOrder, List.length_cons,
    List.getD_cons_succ, List.getD_cons_zero]
  rw [if_neg (by omega)]

/-- With an argument after the command name, `cmdInstallLocalPack` opens the
pack and runs its two steps. -/
theorem cmdInstallLocalPack_eq (c : Core W P D) (a0 dir : String) (rest : List String)
    (s : St W P D) :
    cmdInstallLocalPack c (a0 :: dir :: rest) s =
      packThenInOrder (c.OpenModPack (localPackName c [a0, dir] s.world) s.world)
        (.OpenModPack (localPackName c [a0, dir] s.world))
        (fun cp =>
          [⟨.createLauncherProfile cp, c.createLauncherProfile cp⟩,
           ⟨.installMods cp, c.installMods cp⟩]) s := by
  simp only [cmdInstallLocalPack, localPackName, NArg, Arg, packThenInOrder, runInOrder,
    List.length_cons, List.getD_cons_succ, List.getD_cons_zero]
  rw [if_neg (by omega)]

/-- With an argument after the command name, `cmdRunServer` opens the pack and
runs installServer. -/
theorem cmdRunServer_eq (c : Core W P D) (a0 pack : String) (rest : List String)
    (s : St W P D) :
    cmdRunServer c (a0 :: pack :: rest) s =
      packThenInOrder (c.OpenModPack pack s.world) (.OpenModPack pack)
        (fun cp => [⟨.installServer cp, c.installServer cp⟩]) s := by
  simp only [cmdRunServer, NArg, Arg, packThenInOrder, runInOrder, List.length_cons,
    List.getD_cons_succ, List.getD_cons_zero]
  rw [if_neg (by omega)]

/-- With any argument list that is not empty, `cmdInstallMods` opens the pack
named by `flag.Arg(1)` and runs installMods. -/
theorem cmdInstallMods_eq (c : Core W P D) (args : List String) (h : args ≠ [])
    (s : St W P D) :
    cmdInstallMods c args s =
      packThenInOrder (c.OpenModPack (Arg args 1) s.world) (.OpenModPack (Arg args 1))
        (fun cp => [⟨.installMods cp, c.installMods cp⟩]) s := by
  have hlen : ¬ args.length < 1 := by
    cases args with
    | nil => exact absurd rfl h
    | cons a rest => simp
  simp only [cmdInstallMods, NArg, packThenInOrder, runInOrder]
  rw [if_neg hlen]

/-- With a modUrl that contains "minecraft.curseforge.com", or with a fourth
argument, `cmdRegisterMod` opens the pack and runs registerMod. -/
theorem cmdRegisterMod_eq (c : Core W P D) (a0 pack modUrl : String) (more : List String)
    (s : St W P D)
    (h : stringsContains modUrl "minecraft.curseforge.com" = true ∨ more ≠ []) :
    cmdRegisterMod c (a0 :: pack :: modUrl :: more) s =
      packThenInOrder (c.OpenModPack pack s.world) (.OpenModPack pack)
        (fun cp =>
          [⟨.registerMod cp modUrl (Arg (a0 :: pack :: modUrl :: more) 3),
              c.registerMod cp modUrl (Arg (a0 :: pack :: modUrl :: more) 3)⟩]) s := by
  have hgate : (!stringsContains modUrl "minecraft.curseforge.com" &&
      decide ((a0 :: pack :: modUrl :: more).length < 4)) = false := by
    rcases h with h | h
    · simp [h]
    · cases more with
      | nil => exact absurd rfl h
      | cons f rest => simp
  simp only [cmdRegisterMod, NArg, Arg, packThenInOrder, runInOrder, List.getD_cons_succ,
    List.getD_cons_zero]
  rw [if_neg (by simp), hgate]
  simp only [Bool.false_eq_true, if_false]

/-! ## Facts about `usage`, the table, `main` and the traces of the commands -/

/-- The text `usage` prints: two header lines and one line for each pair the
loop visits. -/
theorem usage_eq (order : List (String × command)) (s : St W P D) :
    usage order s =
      ⟨s.world,
        s.trace ++
          (.console "usage: mcdex [<options>] <command> [<args>]\n" ::
            .console " commands:\n" ::
            order.map (fun p => Event.console (" - " ++ p.1 ++ ": " ++ p.2.Usage ++ "\n")))⟩ := by
  have hfold : ∀ (l : List (String × command)) (s : St W P D),
      l.foldl (fun s p => console (" - " ++ p.1 ++ ": " ++ p.2.Usage ++ "\n") s) s =
        ⟨s.world,
          s.trace ++ l.map (fun p => Event.console (" - " ++ p.1 ++ ": " ++ p.2.Usage ++ "\n"))⟩ := by
    intro l
    induction l with
    | nil => intro s; simp
    | cons p l ih =>
      intro s
      rw [List.foldl_cons, ih]
      simp [console, St.emit]
  unfold usage
  simp only []
  rw [hfold]
  simp [console, St.emit]

/-- A string that is none of the eight names is not a key of the table. -/
theorem gCommands_lookup_none (name : String)
    (h : name ∉ ["createPack", "installPack", "installLocalPack", "update", "info",
      "registerMod", "installMods", "runServer"]) :
    gCommands.lookup name = none := by
  simp only [List.mem_cons, List.mem_singleton, List.not_mem_nil, or_false, not_or] at h
  obtain ⟨h1, h2, h3, h4, h5, h6, h7, h8⟩ := h
  have e1 : (name == "createPack") = false := by simpa using h1
  have e2 : (name == "installPack") = false := by simpa using h2
  have e3 : (name == "installLocalPack") = false := by simpa using h3
  have e4 : (name == "update") = false := by simpa using h4
  have e5 : (name == "info") = false := by simpa using h5
  have e6 : (name == "registerMod") = false := by simpa using h6
  have e7 : (name == "installMods") = false := by simpa using h7
  have e8 : (name == "runServer") = false := by simpa using h8
  simp only [gCommands, List.lookup, e1, e2, e3, e4, e5, e6, e7, e8]

/-- With the environment initialised, `main` runs the function registered
under the first argument. -/
theorem main_registered (c : Core W P D) (order : List (String × command)) (name : String)
    (rest : List String) (s : St W P D) (w : W) (cmd : command)
    (hinit : c.initEnv s.world = (none, w)) (hcmd : gCommands.lookup name = some cmd) :
    main c order (name :: rest) s =
      afterCommand (cmd.Fn.run c (name :: rest) (s.log w .initEnv none)) := by
  simp [main, Parsed, NArg, Arg, hinit, hcmd]

/-- With the environment initialised and a first argument that is not a key,
`main` prints the error and the usage text and exits with code -1. -/
theorem main_unknown (c : Core W P D) (order : List (String × command)) (name : String)
    (rest : List String) (s : St W P D) (w : W)
    (hinit : c.initEnv s.world = (none, w)) (hcmd : gCommands.lookup name = none) :
    main c order (name :: rest) s =
      (some (-1),
        usage order (console ("ERROR: unknown command '" ++ name ++ "'\n")
          (s.log w .initEnv none))) := by
  simp [main, Parsed, NArg, Arg, hinit, hcmd]

/-- When `initEnv` fails, `main` ends in `log.Fatalf`. -/
theorem main_initEnv_fails (c : Core W P D) (order : List (String × command))
    (args : List String) (hargs : args ≠ []) (s : St W P D) (w : W) (err : GoError)
    (hinit : c.initEnv s.world = (some err, w)) :
    main c order args s =
      (some 1, (s.log w .initEnv (some err)).emit (.fatal "Failed to initialize: %s\n" err)) := by
  cases args with
  | nil => exact absurd rfl hargs
  | cons a rest => simp [main, Parsed, NArg, hinit]

/-- A list whose events all pass the test holds no call of `initEnv`. -/
theorem noInitEnv_of_all (t : List (Event P D))
    (h : t.all (fun ev => match ev with | .call .initEnv _ => false | _ => true) = true) :
    NoInitEnv t := by
  intro ev hev e heq
  subst heq
  have := List.all_eq_true.mp h _ hev
  simp at this

/-- Two stretches without a call of `initEnv` make one. -/
theorem noInitEnv_append (t u : List (Event P D)) (ht : NoInitEnv t) (hu : NoInitEnv u) :
    NoInitEnv (t ++ u) := by
  intro ev hev
  rcases List.mem_append.mp hev with h | h
  · exact ht ev h
  · exact hu ev h

/-- A command function only appends to the trace, and never a call of
`initEnv`. -/
theorem run_trace (f : CmdFn) (c : Core W P D) (args : List String) (s : St W P D) :
    ∃ t, (f.run c args s).2.trace = s.trace ++ t ∧ NoInitEnv t := by
  cases f <;>
    simp only [CmdFn.run, cmdCreatePack, cmdInstallPack, cmdInstallLocalPack, cmdUpdate,
      cmdInfo, cmdRegisterMod, cmdInstallMods, cmdRunServer] <;>
    (repeat' split) <;>
    simp only [St.log, St.emit, List.append_assoc] <;>
    first
      | exact ⟨[], (List.append_nil _).symm, noInitEnv_of_all _ rfl⟩
      | exact ⟨_, rfl, noInitEnv_of_all _ rfl⟩

/-- The end of `main` only appends to the trace, and never a call of
`initEnv`. -/
theorem afterCommand_trace (r : Ret × St W P D) :
    ∃ t, (afterCommand r).2.trace = r.2.trace ++ t ∧ NoInitEnv t := by
  rcases r with ⟨_ | code, s⟩
  · rename_i err
    cases err with
    | none => exact ⟨[], (List.append_nil _).symm, noInitEnv_of_all _ rfl⟩
    | some e => exact ⟨[.fatal "%+v\n" e], rfl, noInitEnv_of_all _ rfl⟩
  · exact ⟨[], (List.append_nil _).symm, noInitEnv_of_all _ rfl⟩

/-! ## The library of the concrete engine -/

/-- A path that starts with an absolute path is absolute. -/
theorem IsAbs_append (a b : String) (h : IsAbs a = true) : IsAbs (a ++ b) = true := by
  rcases a with ⟨_ | ⟨ch, l⟩⟩
  · exact absurd h (by decide)
  · have hch : '/' = ch := by simpa [IsAbs, String.toList, List.isPrefixOf] using h
    subst hch
    show List.isPrefixOf "/".toList ((String.mk ('/' :: l)) ++ b).toList = true
    simp [String.toList, String.data_append, List.isPrefixOf]

/-- The library of `demoCore` keeps the contract of `filepath.Abs`. -/
theorem demoCore_AbsContract (bad : Nat) (cwd : String) (h : IsAbs cwd = true) :
    AbsContract (demoCore bad (some cwd)) := by
  intro path w _
  by_cases hp : IsAbs path = true
  · simp [demoCore, hp]
  · have hp2 : IsAbs path = false := by simpa using hp
    have : ((demoCore bad (some cwd)).Abs path w).1 = cwd ++ "/" ++ path := by
      simp [demoCore, hp2]
    rw [this, String.append_assoc]
    exact IsAbs_append _ _ h

/-! ## The claims -/

/-- C2, as stated, fails: `createPack demoPack` has too few arguments, the
command returns "Insufficient arguments", and the process exits with status 1,
not 255. -/
theorem too_few_arguments_not_usage_status :
    main (demoCore 99 none) gCommands ["createPack", "demoPack"] demoStart =
      (some 1,
        ⟨1, [.call .initEnv none, .fatal "%+v\n" (Errorf "Insufficient arguments")]⟩) ∧
    exitStatus (main (demoCore 99 none) gCommands ["createPack", "demoPack"] demoStart).1 ≠
      255 := by
  decide

/-- C2, amended: for createPack, installPack, installLocalPack, registerMod
and runServer, a call with too few arguments (for registerMod also: without a
fileId and a modUrl that does not contain "minecraft.curseforge.com") makes
the command return "Insufficient arguments" before any call into the engine;
`main` hands the error to `log.Fatalf` and the process exits with status 1. -/
theorem too_few_arguments_exit_status_one (c : Core W P D) (order : List (String × command))
    (s : St W P D) (w : W) (rest : List String) (hinit : c.initEnv s.world = (none, w)) :
    (rest.length < 3 → main c order ("createPack" :: rest) s =
      (some 1,
        ⟨w, s.trace ++ [.call .initEnv none, .fatal "%+v\n" (Errorf "Insufficient arguments")]⟩)) ∧
    (rest.length < 2 → main c order ("installPack" :: rest) s =
      (some 1,
        ⟨w, s.trace ++ [.call .initEnv none, .fatal "%+v\n" (Errorf "Insufficient arguments")]⟩)) ∧
    (rest.length < 1 → main c order ("installLocalPack" :: rest) s =
      (some 1,
        ⟨w, s.trace ++ [.call .initEnv none, .fatal "%+v\n" (Errorf "Insufficient arguments")]⟩)) ∧
    (rest.length < 2 → main c order ("registerMod" :: rest) s =
      (some 1,
        ⟨w, s.trace ++ [.call .initEnv none, .fatal "%+v\n" (Errorf "Insufficient arguments")]⟩)) ∧
    (∀ pack modUrl, stringsContains modUrl "minecraft.curseforge.com" = false →
      main c order ["registerMod", pack, modUrl] s =
      (some 1,
        ⟨w, s.trace ++ [.call .initEnv none, .fatal "%+v\n" (Errorf "Insufficient arguments")]⟩)) ∧
    (rest.length < 1 → main c order ("runServer" :: rest) s =
      (some 1,
        ⟨w, s.trace ++ [.call .initEnv none, .fatal "%+v\n" (Errorf "Insufficient arguments")]⟩)) ∧
    exitStatus (some 1) = 1 := by
  refine ⟨?_, ?_, ?_, ?_, ?_, ?_, rfl⟩
  · intro h
    rw [main_registered c order "createPack" rest s w ⟨.cmdCreatePack, "Create a new mod pack"⟩
      hinit rfl]
    have h4 : ("createPack" :: rest).length < 4 := by simp only [List.length_cons]; omega
    simp only [CmdFn.run, cmdCreatePack, NArg, if_pos h4]
    simp [afterCommand, St.emit, St.log]
  · intro h
    rw [main_registered c order "installPack" rest s w ⟨.cmdInstallPack, "Install a mod pack"⟩
      hinit rfl]
    have h3 : ("installPack" :: rest).length < 3 := by simp only [List.length_cons]; omega
    simp only [CmdFn.run, cmdInstallPack, NArg, if_pos h3]
    simp [afterCommand, St.emit, St.log]
  · intro h
    rw [main_registered c order "installLocalPack" rest s w
      ⟨.cmdInstallLocalPack, "Install specified directory as a pack"⟩ hinit rfl]
    have h2 : ("installLocalPack" :: rest).length < 2 := by simp only [List.length_cons]; omega
    simp only [CmdFn.run, cmdInstallLocalPack, NArg, if_pos h2]
    simp [afterCommand, St.emit, St.log]
  · intro h
    rw [main_registered c order "registerMod" rest s w
      ⟨.cmdRegisterMod, "Register a curseforge mod with an existing pack"⟩ hinit rfl]
    have h3 : ("registerMod" :: rest).length < 3 := by simp only [List.length_cons]; omega
    simp only [CmdFn.run, cmdRegisterMod, NArg, if_pos h3]
    simp [afterCommand, St.emit, St.log]
  · intro pack modUrl h
    rw [main_registered c order "registerMod" [pack, modUrl] s w
      ⟨.cmdRegisterMod, "Register a curseforge mod with an existing pack"⟩ hinit rfl]
    simp [CmdFn.run, cmdRegisterMod, NArg, Arg, h, afterCommand, St.emit, St.log]
  · intro h
    rw [main_registered c order "runServer" rest s w
      ⟨.cmdRunServer, "Run a minecraft server with an existing pack"⟩ hinit rfl]
    have h2 : ("runServer" :: rest).length < 2 := by simp only [List.length_cons]; omega
    simp only [CmdFn.run, cmdRunServer, NArg, if_pos h2]
    simp [afterCommand, St.emit, St.log]

/-- Witness for the amended C2: `createPack demoPack` exits with status 1
after `initEnv` and the fatal message. -/
theorem too_few_arguments_exit_status_one_witness :
    main (demoCore 99 none) gCommands ["createPack", "demoPack"] demoStart =
      (some 1,
        ⟨1, [.call .initEnv none, .fatal "%+v\n" (Errorf "Insufficient arguments")]⟩) :=
  (too_few_arguments_exit_status_one (demoCore 99 none) gCommands demoStart 1 ["demoPack"]
    rfl).1 (by decide)

/-- C3: `installPack <name> <url>` constructs the pack with
`NewModPack(name, url)` and then runs download, processManifest,
createLauncherProfile, installMods, installOverrides in that order; it
returns nil exactly when the constructor and all five steps ran and returned
nil; an error it returns is the error of the last call it made, every earlier
call having returned nil; with fewer than two arguments after the command
name it returns "Insufficient arguments" and makes no call. -/
theorem cmdInstallPack_runs_steps_in_order (c : Core W P D) (a0 name url : String)
    (rest : List String) (s : St W P D) :
    cmdInstallPack c (a0 :: name :: url :: rest) s =
      packThenInOrder (c.NewModPack name url s.world) (.NewModPack name url)
        (fun cp =>
          [⟨.download cp, c.download cp⟩, ⟨.processManifest cp, c.processManifest cp⟩,
           ⟨.createLauncherProfile cp, c.createLauncherProfile cp⟩,
           ⟨.installMods cp, c.installMods cp⟩,
           ⟨.installOverrides cp, c.installOverrides cp⟩]) s ∧
    ((cmdInstallPack c (a0 :: name :: url :: rest) s).1 = .ret none ↔
      ∃ cp, (c.NewModPack name url s.world).1 = .ok cp ∧
        (cmdInstallPack c (a0 :: name :: url :: rest) s).2.trace =
          s.trace ++
            [.call (.NewModPack name url) none, .call (.download cp) none,
             .call (.processManifest cp) none, .call (.createLauncherProfile cp) none,
             .call (.installMods cp) none, .call (.installOverrides cp) none]) ∧
    (∀ err, (cmdInstallPack c (a0 :: name :: url :: rest) s).1 = .ret (some err) →
      ∃ (pre : List (Event P D)) (last : Call P D),
        (cmdInstallPack c (a0 :: name :: url :: rest) s).2.trace =
          s.trace ++ pre ++ [.call last (some err)] ∧
        ∀ ev ∈ pre, ∃ cl, ev = Event.call cl none) ∧
    (∀ args : List String, args.length < 3 →
      cmdInstallPack c args s = (.ret (some (Errorf "Insufficient arguments")), s)) := by
  refine ⟨cmdInstallPack_eq c a0 name url rest s, ?_, ?_, ?_⟩
  · rw [cmdInstallPack_eq]
    simpa [Step.passed] using packThenInOrder_none_iff (c.NewModPack name url s.world)
      (.NewModPack name url) _ s
  · intro err h
    rw [cmdInstallPack_eq] at h ⊢
    exact packThenInOrder_some _ _ _ s err h
  · intro args h
    simp [cmdInstallPack, NArg, h]

/-- Witness for C3: with the third call (processManifest) failing, the error
returned is that call's error and it is the last call; with one argument the
command returns "Insufficient arguments". -/
theorem cmdInstallPack_runs_steps_in_order_witness :
    (∃ (pre : List (Event String Unit)) (last : Call String Unit),
      (cmdInstallPack (demoCore 2 none) ["installPack", "demoPack", "http://example/pack.zip"]
          demoStart).2.trace =
        demoStart.trace ++ pre ++ [.call last (some ⟨"manifest invalid"⟩)] ∧
      ∀ ev ∈ pre, ∃ cl, ev = Event.call cl none) ∧
    cmdInstallPack (demoCore 2 none) ["installPack", "demoPack"] demoStart =
      (.ret (some (Errorf "Insufficient arguments")), demoStart) :=
  ⟨(cmdInstallPack_runs_steps_in_order (demoCore 2 none) "installPack" "demoPack"
      "http://example/pack.zip" [] demoStart).2.2.1 ⟨"manifest invalid"⟩ (by decide),
   (cmdInstallPack_runs_steps_in_order (demoCore 2 none) "installPack" "demoPack"
      "http://example/pack.zip" [] demoStart).2.2.2 ["installPack", "demoPack"] (by decide)⟩

/-- C4, as stated, fails: the URL "https://example.com/minecraft.curseforge.com"
has the host "example.com", which does not contain "minecraft.curseforge.com",
and yet `registerMod demoPack <url>` without a fileId is accepted: the pack
is opened and registerMod is called. -/
theorem cmdRegisterMod_accepts_other_host :
    stringsContains (urlHost "https://example.com/minecraft.curseforge.com")
      "minecraft.curseforge.com" = false ∧
    cmdRegisterMod (demoCore 99 none)
        ["registerMod", "demoPack", "https://example.com/minecraft.curseforge.com"] demoStart =
      (.ret none,
        ⟨2, [.call (.OpenModPack "demoPack") none,
             .call (.registerMod "demoPack" "https://example.com/minecraft.curseforge.com" "")
               none]⟩) := by
  decide

/-- C4, amended: `registerMod <pack> <modUrl>` without a fileId is accepted
exactly when the argument modUrl, as a whole string, contains
"minecraft.curseforge.com" (not: when its host does); otherwise it fails with
"Insufficient arguments" before any pack is opened.  With a fileId the form
is accepted for every modUrl.  When the check passes, the pack is opened and,
when that succeeds, registerMod(modUrl, fileId) is called, with the empty
string as fileId when none was given.  With fewer than two arguments after the
command name the command fails with "Insufficient arguments". -/
theorem cmdRegisterMod_argument_check (c : Core W P D) (a0 pack modUrl : String)
    (s : St W P D) :
    cmdRegisterMod c [a0, pack, modUrl] s =
      (if stringsContains modUrl "minecraft.curseforge.com" = true then
        packThenInOrder (c.OpenModPack pack s.world) (.OpenModPack pack)
          (fun cp => [⟨.registerMod cp modUrl "", c.registerMod cp modUrl ""⟩]) s
      else (.ret (some (Errorf "Insufficient arguments")), s)) ∧
    (∀ (fileId : String) (rest : List String),
      cmdRegisterMod c (a0 :: pack :: modUrl :: fileId :: rest) s =
        packThenInOrder (c.OpenModPack pack s.world) (.OpenModPack pack)
          (fun cp => [⟨.registerMod cp modUrl fileId, c.registerMod cp modUrl fileId⟩]) s) ∧
    (∀ args : List String, args.length < 3 →
      cmdRegisterMod c args s = (.ret (some (Errorf "Insufficient arguments")), s)) := by
  refine ⟨?_, ?_, ?_⟩
  · by_cases h : stringsContains modUrl "minecraft.curseforge.com" = true
    · rw [if_pos h, cmdRegisterMod_eq c a0 pack modUrl [] s (Or.inl h)]
      rfl
    · rw [if_neg h]
      have h2 : stringsContains modUrl "minecraft.curseforge.com" = false := by simpa using h
      simp [cmdRegisterMod, NArg, Arg, h2]
  · intro fileId rest
    rw [cmdRegisterMod_eq c a0 pack modUrl (fileId :: rest) s (Or.inr (by simp))]
    rfl
  · intro args h
    simp [cmdRegisterMod, NArg, h]

/-- Witness for the amended C4: with one argument after the command name the
command returns "Insufficient arguments". -/
theorem cmdRegisterMod_argument_check_witness :
    cmdRegisterMod (demoCore 99 none) ["registerMod", "demoPack"] demoStart =
      (.ret (some (Errorf "Insufficient arguments")), demoStart) :=
  (cmdRegisterMod_argument_check (demoCore 99 none) "registerMod" "demoPack"
    "https://minecraft.curseforge.com/projects/jei" demoStart).2.2
    ["registerMod", "demoPack"] (by decide)

/-- C5, the code at the failing input: `installMods` with no argument after
the command name does not return "Insufficient arguments"; the check
`flag.NArg() < 1` lets it through, `OpenModPack` is called with the empty
string and, when that succeeds, installMods runs and the process ends with
status 0.  The sibling `runServer`, whose check is `flag.NArg() < 2`, returns
"Insufficient arguments" on the same input. -/
theorem cmdInstallMods_without_pack_opens_empty_name (c : Core W P D) (s : St W P D) :
    cmdInstallMods c ["installMods"] s =
      packThenInOrder (c.OpenModPack "" s.world) (.OpenModPack "")
        (fun cp => [⟨.installMods cp, c.installMods cp⟩]) s ∧
    cmdInstallMods c ["installMods"] s ≠ (.ret (some (Errorf "Insufficient arguments")), s) ∧
    main (demoCore 99 none) gCommands ["installMods"] demoStart =
      (none,
        ⟨3, [.call .initEnv none, .call (.OpenModPack "") none,
             .call (.installMods "") none]⟩) ∧
    cmdRunServer (demoCore 99 none) ["runServer"] demoStart =
      (.ret (some (Errorf "Insufficient arguments")), demoStart) := by
  have heq := cmdInstallMods_eq c ["installMods"] (by simp) s
  refine ⟨by rw [heq]; rfl, ?_, by decide, by decide⟩
  intro h
  have htr := congrArg (fun r => r.2.trace.length) h
  rw [heq] at htr
  rcases hopen : c.OpenModPack (Arg ["installMods"] 1) s.world with ⟨err | cp, w⟩
  · simp [hopen, packThenInOrder, St.log] at htr
  · rcases hi : c.installMods cp w with ⟨_ | e, w2⟩ <;>
      simp [hopen, hi, packThenInOrder, runInOrder, St.log] at htr

/-- C6: `createPack <name> <mcVersion> <forgeVersion>` constructs the pack
with `NewModPack(name, "")`, then calls
`createManifest(name, mcVersion, forgeVersion)`, then createLauncherProfile,
in that order; it returns nil exactly when all three ran and returned nil; an
error it returns is the error of the last call it made, every earlier call
having returned nil; with fewer than three arguments after the command name
it returns "Insufficient arguments" and makes no call. -/
theorem cmdCreatePack_runs_steps_in_order (c : Core W P D)
    (a0 name mcVersion forgeVersion : String) (rest : List String) (s : St W P D) :
    cmdCreatePack c (a0 :: name :: mcVersion :: forgeVersion :: rest) s =
      packThenInOrder (c.NewModPack name "" s.world) (.NewModPack name "")
        (fun cp =>
          [⟨.createManifest cp name mcVersion forgeVersion,
              c.createManifest cp name mcVersion forgeVersion⟩,
           ⟨.createLauncherProfile cp, c.createLauncherProfile cp⟩]) s ∧
    ((cmdCreatePack c (a0 :: name :: mcVersion :: forgeVersion :: rest) s).1 = .ret none ↔
      ∃ cp, (c.NewModPack name "" s.world).1 = .ok cp ∧
        (cmdCreatePack c (a0 :: name :: mcVersion :: forgeVersion :: rest) s).2.trace =
          s.trace ++
            [.call (.NewModPack name "") none,
             .call (.createManifest cp name mcVersion forgeVersion) none,
             .call (.createLauncherProfile cp) none]) ∧
    (∀ err,
      (cmdCreatePack c (a0 :: name :: mcVersion :: forgeVersion :: rest) s).1 = .ret (some err) →
      ∃ (pre : List (Event P D)) (last : Call P D),
        (cmdCreatePack c (a0 :: name :: mcVersion :: forgeVersion :: rest) s).2.trace =
          s.trace ++ pre ++ [.call last (some err)] ∧
        ∀ ev ∈ pre, ∃ cl, ev = Event.call cl none) ∧
    (∀ args : List String, args.length < 4 →
      cmdCreatePack c args s = (.ret (some (Errorf "Insufficient arguments")), s)) := by
  refine ⟨cmdCreatePack_eq c a0 name mcVersion forgeVersion rest s, ?_, ?_, ?_⟩
  · rw [cmdCreatePack_eq]
    simpa [Step.passed] using packThenInOrder_none_iff (c.NewModPack name "" s.world)
      (.NewModPack name "") _ s
  · intro err h
    rw [cmdCreatePack_eq] at h ⊢
    exact packThenInOrder_some _ _ _ s err h
  · intro args h
    simp [cmdCreatePack, NArg, h]

/-- Witness for C6: with the second call (createManifest) failing, its error
is returned and it is the last call; with two arguments after the command
name the command returns "Insufficient arguments". -/
theorem cmdCreatePack_runs_steps_in_order_witness :
    (∃ (pre : List (Event String Unit)) (last : Call String Unit),
      (cmdCreatePack (demoCore 1 none) ["createPack", "demoPack", "1.12.2", "14.23.5.2847"]
          demoStart).2.trace =
        demoStart.trace ++ pre ++ [.call last (some ⟨"createManifest failed"⟩)] ∧
      ∀ ev ∈ pre, ∃ cl, ev = Event.call cl none) ∧
    cmdCreatePack (demoCore 1 none) ["createPack", "demoPack", "1.12.2"] demoStart =
      (.ret (some (Errorf "Insufficient arguments")), demoStart) :=
  ⟨(cmdCreatePack_runs_steps_in_order (demoCore 1 none) "createPack" "demoPack" "1.12.2"
      "14.23.5.2847" [] demoStart).2.2.1 ⟨"createManifest failed"⟩ (by decide),
   (cmdCreatePack_runs_steps_in_order (demoCore 1 none) "createPack" "demoPack" "1.12.2"
      "14.23.5.2847" [] demoStart).2.2.2 ["createPack", "demoPack", "1.12.2"] (by decide)⟩

/-- C7, as stated, fails: when the working directory of the process cannot
be determined, `os.Getwd` and `filepath.Abs` return the empty string with an
error, the errors are dropped, and both `installLocalPack demoPack` and
`installLocalPack .` hand the empty string, which is not an absolute path, to
`OpenModPack`. -/
theorem cmdInstallLocalPack_path_not_absolute :
    cmdInstallLocalPack (demoCore 99 none) ["installLocalPack", "demoPack"] demoStart =
      (.ret none,
        ⟨3, [.call (.OpenModPack "") none, .call (.createLauncherProfile "") none,
             .call (.installMods "") none]⟩) ∧
    cmdInstallLocalPack (demoCore 99 none) ["installLocalPack", "."] demoStart =
      (.ret none,
        ⟨3, [.call (.OpenModPack "") none, .call (.createLauncherProfile "") none,
             .call (.installMods "") none]⟩) ∧
    IsAbs "" = false := by
  decide

/-- C7, amended: `installLocalPack <dir>` opens the pack, then runs
createLauncherProfile and installMods, in that order and nothing else; it
returns nil exactly when all three ran and returned nil; an error it returns
is the error of the last call it made, every earlier call having returned
nil.  The path handed to `OpenModPack` is the string `filepath.Abs` returns
for dir (for dir = ".", for the string `os.Getwd` returns), the errors of
both calls being dropped; it is an absolute path whenever `filepath.Abs`
reports no error.  With no argument after the command name the command
returns "Insufficient arguments" and makes no call. -/
theorem cmdInstallLocalPack_runs_steps_in_order (c : Core W P D) (a0 dir : String)
    (rest : List String) (s : St W P D) :
    cmdInstallLocalPack c (a0 :: dir :: rest) s =
      packThenInOrder
        (c.OpenModPack (c.Abs (if dir = "." then (c.Getwd s.world).1 else dir) s.world).1
          s.world)
        (.OpenModPack (c.Abs (if dir = "." then (c.Getwd s.world).1 else dir) s.world).1)
        (fun cp =>
          [⟨.createLauncherProfile cp, c.createLauncherProfile cp⟩,
           ⟨.installMods cp, c.installMods cp⟩]) s ∧
    ((cmdInstallLocalPack c (a0 :: dir :: rest) s).1 = .ret none ↔
      ∃ cp,
        (c.OpenModPack (c.Abs (if dir = "." then (c.Getwd s.world).1 else dir) s.world).1
          s.world).1 = .ok cp ∧
        (cmdInstallLocalPack c (a0 :: dir :: rest) s).2.trace =
          s.trace ++
            [.call
                (.OpenModPack (c.Abs (if dir = "." then (c.Getwd s.world).1 else dir) s.world).1)
                none,
             .call (.createLauncherProfile cp) none, .call (.installMods cp) none]) ∧
    (∀ err, (cmdInstallLocalPack c (a0 :: dir :: rest) s).1 = .ret (some err) →
      ∃ (pre : List (Event P D)) (last : Call P D),
        (cmdInstallLocalPack c (a0 :: dir :: rest) s).2.trace =
          s.trace ++ pre ++ [.call last (some err)] ∧
        ∀ ev ∈ pre, ∃ cl, ev = Event.call cl none) ∧
    (AbsContract c →
      (c.Abs (if dir = "." then (c.Getwd s.world).1 else dir) s.world).2 = none →
      IsAbs (c.Abs (if dir = "." then (c.Getwd s.world).1 else dir) s.world).1 = true) ∧
    (∀ args : List String, args.length < 2 →
      cmdInstallLocalPack c args s = (.ret (some (Errorf "Insufficient arguments")), s)) := by
  have hname : localPackName c [a0, dir] s.world =
      (c.Abs (if dir = "." then (c.Getwd s.world).1 else dir) s.world).1 := by
    simp [localPackName, Arg]
  have heq := cmdInstallLocalPack_eq c a0 dir rest s
  rw [hname] at heq
  refine ⟨heq, ?_, ?_, ?_, ?_⟩
  · rw [heq]
    simpa [Step.passed] using packThenInOrder_none_iff
      (c.OpenModPack (c.Abs (if dir = "." then (c.Getwd s.world).1 else dir) s.world).1 s.world)
      (.OpenModPack (c.Abs (if dir = "." then (c.Getwd s.world).1 else dir) s.world).1) _ s
  · intro err h
    rw [heq] at h ⊢
    exact packThenInOrder_some _ _ _ s err h
  · intro hc hok
    exact hc _ _ hok
  · intro args h
    simp [cmdInstallLocalPack, NArg, h]

/-- Witness for the amended C7: in the directory "/home/user",
`installLocalPack .` opens "/home/user", an absolute path; with the second
call (createLauncherProfile) failing, its error is returned and it is the last
call; with no argument the command returns "Insufficient arguments". -/
theorem cmdInstallLocalPack_runs_steps_in_order_witness :
    (∃ (pre : List (Event String Unit)) (last : Call String Unit),
      (cmdInstallLocalPack (demoCore 1 (some "/home/user")) ["installLocalPack", "."]
          demoStart).2.trace =
        demoStart.trace ++ pre ++ [.call last (some ⟨"no launcher"⟩)] ∧
      ∀ ev ∈ pre, ∃ cl, ev = Event.call cl none) ∧
    IsAbs ((demoCore 1 (some "/home/user")).Abs
      (if "." = "." then ((demoCore 1 (some "/home/user")).Getwd demoStart.world).1 else ".")
      demoStart.world).1 = true ∧
    cmdInstallLocalPack (demoCore 1 (some "/home/user")) ["installLocalPack"] demoStart =
      (.ret (some (Errorf "Insufficient arguments")), demoStart) :=
  ⟨(cmdInstallLocalPack_runs_steps_in_order (demoCore 1 (some "/home/user"))
      "installLocalPack" "." [] demoStart).2.2.1 ⟨"no launcher"⟩ (by decide),
   (cmdInstallLocalPack_runs_steps_in_order (demoCore 1 (some "/home/user"))
      "installLocalPack" "." [] demoStart).2.2.2.1
      (demoCore_AbsContract 1 "/home/user" (by decide)) (by decide),
   (cmdInstallLocalPack_runs_steps_in_order (demoCore 1 (some "/home/user"))
      "installLocalPack" "." [] demoStart).2.2.2.2 ["installLocalPack"] (by decide)⟩

/-- C8: `runServer <pack>` opens the pack and calls installServer and makes
no other call: when `OpenModPack` fails its error is returned and nothing
else runs; otherwise the result is exactly the result of installServer; with
no argument after the command name it returns "Insufficient arguments"
without opening a pack. -/
theorem cmdRunServer_only_installs (c : Core W P D) (a0 pack : String) (rest : List String)
    (s : St W P D) :
    (∀ err w, c.OpenModPack pack s.world = (.error err, w) →
      cmdRunServer c (a0 :: pack :: rest) s =
        (.ret (some err), s.log w (.OpenModPack pack) (some err))) ∧
    (∀ cp w, c.OpenModPack pack s.world = (.ok cp, w) →
      cmdRunServer c (a0 :: pack :: rest) s =
        (.ret (c.installServer cp w).1,
          (s.log w (.OpenModPack pack) none).log (c.installServer cp w).2 (.installServer cp)
            (c.installServer cp w).1)) ∧
    (∃ t, (cmdRunServer c (a0 :: pack :: rest) s).2.trace = s.trace ++ t ∧
      ∀ ev ∈ t, (∃ e, ev = Event.call (.OpenModPack pack) e) ∨
        ∃ cp e, ev = Event.call (.installServer cp) e) ∧
    (∀ args : List String, args.length < 2 →
      cmdRunServer c args s = (.ret (some (Errorf "Insufficient arguments")), s)) := by
  have heq := cmdRunServer_eq c a0 pack rest s
  refine ⟨?_, ?_, ?_, ?_⟩
  · intro err w h
    rw [heq, h]
    rfl
  · intro cp w h
    rw [heq, h]
    rcases hi : c.installServer cp w with ⟨_ | e, w2⟩ <;>
      simp [packThenInOrder, runInOrder, St.log, hi]
  · rw [heq]
    rcases c.OpenModPack pack s.world with ⟨err | cp, w⟩
    · exact ⟨[.call (.OpenModPack pack) (some err)], rfl, by simp⟩
    · rcases hi : c.installServer cp w with ⟨_ | e, w2⟩
      · refine ⟨[.call (.OpenModPack pack) none, .call (.installServer cp) none], ?_, ?_⟩
        · simp [packThenInOrder, runInOrder, St.log, hi]
        · simp
      · refine ⟨[.call (.OpenModPack pack) none, .call (.installServer cp) (some e)], ?_, ?_⟩
        · simp [packThenInOrder, runInOrder, St.log, hi]
        · simp
  · intro args h
    simp [cmdRunServer, NArg, h]

/-- Witness for C8: with the pack opening and installServer failing, the
command returns the error of installServer; with the opening failing, it
returns that error after the one call; with no argument it returns
"Insufficient arguments". -/
theorem cmdRunServer_only_installs_witness :
    cmdRunServer (demoCore 0 none) ["runServer", "demoPack"] demoStart =
      (.ret (some ⟨"no manifest"⟩),
        demoStart.log 1 (.OpenModPack "demoPack") (some ⟨"no manifest"⟩)) ∧
    cmdRunServer (demoCore 1 none) ["runServer", "demoPack"] demoStart =
      (.ret (some ⟨"forge install failed"⟩),
        ⟨2, [.call (.OpenModPack "demoPack") none,
             .call (.installServer "demoPack") (some ⟨"forge install failed"⟩)]⟩) ∧
    cmdRunServer (demoCore 1 none) ["runServer"] demoStart =
      (.ret (some (Errorf "Insufficient arguments")), demoStart) :=
  ⟨(cmdRunServer_only_installs (demoCore 0 none) "runServer" "demoPack" []
      demoStart).1 ⟨"no manifest"⟩ 1 rfl,
   (cmdRunServer_only_installs (demoCore 1 none) "runServer" "demoPack" []
      demoStart).2.1 "demoPack" 1 rfl,
   (cmdRunServer_only_installs (demoCore 1 none) "runServer" "demoPack" []
      demoStart).2.2.2 ["runServer"] (by decide)⟩

/-- C9: the table registers exactly the eight names createPack, installPack,
installLocalPack, update, info, registerMod, installMods, runServer, each
with its own function and a help string that is not empty; `main` looks the
first positional argument up by equality of strings (so "createpack" is not a
command); once the environment is initialised, a registered name runs the
function registered under it, and for every other string no command function
runs: the run prints the error and the usage text and makes no call into the
engine after `initEnv`.  When `initEnv` fails no command function runs for
any name. -/
theorem gCommands_dispatch (c : Core W P D) (order : List (String × command))
    (s : St W P D) :
    gCommands.map (fun p => (p.1, p.2.Fn)) =
      [("createPack", .cmdCreatePack), ("installPack", .cmdInstallPack),
       ("installLocalPack", .cmdInstallLocalPack), ("update", .cmdUpdate),
       ("info", .cmdInfo), ("registerMod", .cmdRegisterMod),
       ("installMods", .cmdInstallMods), ("runServer", .cmdRunServer)] ∧
    (∀ p ∈ gCommands, p.2.Usage ≠ "") ∧
    (∀ name, gCommands.lookup name ≠ none ↔
      name ∈ ["createPack", "installPack", "installLocalPack", "update", "info",
        "registerMod", "installMods", "runServer"]) ∧
    (∀ name cmd, gCommands.lookup name = some cmd → (name, cmd) ∈ gCommands) ∧
    gCommands.lookup "createpack" = none ∧
    (∀ w, c.initEnv s.world = (none, w) → ∀ rest,
      main c order ("createPack" :: rest) s =
        afterCommand (cmdCreatePack c ("createPack" :: rest) (s.log w .initEnv none)) ∧
      main c order ("installPack" :: rest) s =
        afterCommand (cmdInstallPack c ("installPack" :: rest) (s.log w .initEnv none)) ∧
      main c order ("installLocalPack" :: rest) s =
        afterCommand
          (cmdInstallLocalPack c ("installLocalPack" :: rest) (s.log w .initEnv none)) ∧
      main c order ("update" :: rest) s =
        afterCommand (cmdUpdate c ("update" :: rest) (s.log w .initEnv none)) ∧
      main c order ("info" :: rest) s =
        afterCommand (cmdInfo c ("info" :: rest) (s.log w .initEnv none)) ∧
      main c order ("registerMod" :: rest) s =
        afterCommand (cmdRegisterMod c ("registerMod" :: rest) (s.log w .initEnv none)) ∧
      main c order ("installMods" :: rest) s =
        afterCommand (cmdInstallMods c ("installMods" :: rest) (s.log w .initEnv none)) ∧
      main c order ("runServer" :: rest) s =
        afterCommand (cmdRunServer c ("runServer" :: rest) (s.log w .initEnv none))) ∧
    (∀ w, c.initEnv s.world = (none, w) → ∀ name rest,
      name ∉ ["createPack", "installPack", "installLocalPack", "update", "info",
        "registerMod", "installMods", "runServer"] →
      main c order (name :: rest) s =
        (some (-1),
          ⟨w, s.trace ++
            (.call .initEnv none ::
              .console ("ERROR: unknown command '" ++ name ++ "'\n") ::
              .console "usage: mcdex [<options>] <command> [<args>]\n" ::
              .console " commands:\n" ::
              order.map
                (fun p => Event.console (" - " ++ p.1 ++ ": " ++ p.2.Usage ++ "\n")))⟩)) ∧
    (∀ err w, c.initEnv s.world = (some err, w) → ∀ name rest,
      main c order (name :: rest) s =
        (some 1,
          ⟨w, s.trace ++
            [.call .initEnv (some err), .fatal "Failed to initialize: %s\n" err]⟩)) := by
  refine ⟨rfl, by decide, ?_, ?_, by decide, ?_, ?_, ?_⟩
  · intro name
    constructor
    · intro h
      by_contra hn
      exact h (gCommands_lookup_none name hn)
    · intro h
      simp only [List.mem_cons, List.mem_singleton, List.not_mem_nil, or_false] at h
      rcases h with rfl | rfl | rfl | rfl | rfl | rfl | rfl | rfl <;> decide
  · intro name cmd h
    by_cases hn : name ∈ ["createPack", "installPack", "installLocalPack", "update", "info",
        "registerMod", "installMods", "runServer"]
    · simp only [List.mem_cons, List.mem_singleton, List.not_mem_nil, or_false] at hn
      rcases hn with rfl | rfl | rfl | rfl | rfl | rfl | rfl | rfl <;>
        · have hc := Option.some.inj (Eq.trans (Eq.symm h) (by rfl))
          subst hc
          decide
    · rw [gCommands_lookup_none name hn] at h
      exact absurd h (by simp)
  · intro w hinit rest
    exact ⟨main_registered c order "createPack" rest s w _ hinit rfl,
      main_registered c order "installPack" rest s w _ hinit rfl,
      main_registered c order "installLocalPack" rest s w _ hinit rfl,
      main_registered c order "update" rest s w _ hinit rfl,
      main_registered c order "info" rest s w _ hinit rfl,
      main_registered c order "registerMod" rest s w _ hinit rfl,
      main_registered c order "installMods" rest s w _ hinit rfl,
      main_registered c order "runServer" rest s w _ hinit rfl⟩
  · intro w hinit name rest hn
    rw [main_unknown c order name rest s w hinit (gCommands_lookup_none name hn), usage_eq]
    simp [console, St.emit, St.log]
  · intro err w hinit name rest
    rw [main_initEnv_fails c order (name :: rest) (by simp) s w err hinit]
    simp [St.log, St.emit]

/-- Witness for C9: with the environment initialised, `installMods demoPack`
runs `cmdInstallMods`, and "createpack" runs no command; with `initEnv`
failing, `info` does not run. -/
theorem gCommands_dispatch_witness :
    main (demoCore 99 none) gCommands ["installMods", "demoPack"] demoStart =
      afterCommand (cmdInstallMods (demoCore 99 none) ["installMods", "demoPack"]
        ⟨1, [.call .initEnv none]⟩) ∧
    (main (demoCore 99 none) [] ["createpack"] demoStart).2.trace =
      [.call .initEnv none, .console "ERROR: unknown command 'createpack'\n",
       .console "usage: mcdex [<options>] <command> [<args>]\n", .console " commands:\n"] ∧
    main (demoCore 0 none) gCommands ["info"] demoStart =
      (some 1,
        ⟨1, [.call .initEnv (some ⟨"no minecraft directory"⟩),
             .fatal "Failed to initialize: %s\n" ⟨"no minecraft directory"⟩]⟩) :=
  ⟨((gCommands_dispatch (demoCore 99 none) gCommands demoStart).2.2.2.2.2.1 1 rfl
      ["demoPack"]).2.2.2.2.2.2.1,
   congrArg (fun r => r.2.trace)
     ((gCommands_dispatch (demoCore 99 none) [] demoStart).2.2.2.2.2.2.1 1 rfl "createpack" []
       (by decide)),
   (gCommands_dispatch (demoCore 0 none) gCommands demoStart).2.2.2.2.2.2.2
     ⟨"no minecraft directory"⟩ 1 rfl "info" []⟩

/-- C10: in every run of `main` with at least one positional argument,
`initEnv` is called exactly once and its call is the first event of the run,
before anything a command does; when `initEnv` fails the process goes through
`log.Fatalf` and exits with status 1 after that one call, whatever the
command name is. -/
theorem initEnv_once_before_any_command (c : Core W P D) (order : List (String × command))
    (args : List String) (s : St W P D) (hargs : args ≠ []) :
    (∃ t, (main c order args s).2.trace =
        s.trace ++ Event.call Call.initEnv (c.initEnv s.world).1 :: t ∧
      ∀ ev ∈ t, ∀ e, ev ≠ Event.call Call.initEnv e) ∧
    (∀ err w, c.initEnv s.world = (some err, w) →
      main c order args s =
        (some 1,
          ⟨w, s.trace ++ [.call .initEnv (some err), .fatal "Failed to initialize: %s\n" err]⟩) ∧
      exitStatus (main c order args s).1 = 1) := by
  constructor
  · rcases hinit : c.initEnv s.world with ⟨_ | err, w⟩
    · cases args with
      | nil => exact absurd rfl hargs
      | cons name rest =>
        rcases hcmd : gCommands.lookup name with _ | cmd
        · rw [main_unknown c order name rest s w hinit hcmd, usage_eq]
          refine ⟨Event.console ("ERROR: unknown command '" ++ name ++ "'\n") ::
            Event.console "usage: mcdex [<options>] <command> [<args>]\n" ::
            Event.console " commands:\n" ::
            order.map (fun p => Event.console (" - " ++ p.1 ++ ": " ++ p.2.Usage ++ "\n")),
            by simp [console, St.emit, St.log], ?_⟩
          intro ev hev e heq
          subst heq
          simp at hev
        · rw [main_registered c order name rest s w cmd hinit hcmd]
          obtain ⟨t1, h1, n1⟩ := run_trace cmd.Fn c (name :: rest) (s.log w .initEnv none)
          obtain ⟨t2, h2, n2⟩ :=
            afterCommand_trace (cmd.Fn.run c (name :: rest) (s.log w .initEnv none))
          refine ⟨t1 ++ t2, ?_, noInitEnv_append _ _ n1 n2⟩
          rw [h2, h1]
          simp [St.log]
    · rw [main_initEnv_fails c order args hargs s w err hinit]
      exact ⟨[.fatal "Failed to initialize: %s\n" err], by simp [St.log, St.emit],
        noInitEnv_of_all _ rfl⟩
  · intro err w hinit
    rw [main_initEnv_fails c order args hargs s w err hinit]
    exact ⟨by simp [St.log, St.emit], rfl⟩

/-- Witness for C10: with `initEnv` failing, `createPack` with all its
arguments exits with status 1 after the one call. -/
theorem initEnv_once_before_any_command_witness :
    main (demoCore 0 none) gCommands ["createPack", "demoPack", "1.12.2", "14.23.5.2847"]
        demoStart =
      (some 1,
        ⟨1, [.call .initEnv (some ⟨"no minecraft directory"⟩),
             .fatal "Failed to initialize: %s\n" ⟨"no minecraft directory"⟩]⟩) ∧
    exitStatus (main (demoCore 0 none) gCommands
      ["createPack", "demoPack", "1.12.2", "14.23.5.2847"] demoStart).1 = 1 :=
  (initEnv_once_before_any_command (demoCore 0 none) gCommands
    ["createPack", "demoPack", "1.12.2", "14.23.5.2847"] demoStart (by decide)).2
    ⟨"no minecraft directory"⟩ 1 rfl

end Mcdex
